import Mathlib

/-!
Shallow embedding of the FinAgent-Pro query service and history store.

Source files embedded:
- src/app/actions.ts : analyzeFinancialDataAction, FinancialQuerySchema,
  ChartSchema, healthCheck
- src/app/page.tsx : validateChartData, handleSearch history append,
  filteredHistory search

Strings are modelled as List Char; JSON values as an inductive Json where a
number carries a finiteness flag (JSON.parse of a huge literal yields
Infinity in JS). External collaborators (the Gemini call, JSON.parse, the
environment credential) are parameters of an Env record.
-/

namespace FinAgent

/-- JavaScript whitespace class, modelled by Char.isWhitespace. -/
def isJsWs (c : Char) : Bool := c.isWhitespace

/-- JS String.prototype.trim: strip leading and trailing whitespace. -/
def trimChars (l : List Char) : List Char :=
  ((l.dropWhile isJsWs).reverse.dropWhile isJsWs).reverse

/-- First occurrence of pattern pat in l: returns (before, after) split
around the first occurrence, scanning left to right as a JS regex or
String.prototype.indexOf does. -/
def splitFirst (pat : List Char) : (l : List Char) → Option (List Char × List Char)
  | [] => if pat.isPrefixOf ([] : List Char) then some ([], []) else none
  | c :: cs =>
    if pat.isPrefixOf (c :: cs) then some ([], (c :: cs).drop pat.length)
    else (splitFirst pat cs).map (fun p => (c :: p.1, p.2))

/-- JS String.prototype.includes: hay.includes(needle). -/
def includesSub (hay needle : List Char) : Bool := (splitFirst needle hay).isSome

/-- The opening delimiter tag of the embedded payload. -/
def tagOpen : List Char := "<data>".toList

/-- The closing delimiter tag of the embedded payload. -/
def tagClose : List Char := "</data>".toList

/-- text.match(/<data>([\s\S]*?)<\/data>/) capture group 1: the regex finds
the leftmost position where the whole pattern matches; the lazy quantifier
stops at the first closing tag after the first opening tag. -/
def extractFirstData (text : List Char) : Option (List Char) :=
  match splitFirst tagOpen text with
  | none => none
  | some (_, rest) =>
    match splitFirst tagClose rest with
    | none => none
    | some (content, _) => some content

/-- One pass of str.replace(/PAT\s*/g, ""): delete every non-overlapping
occurrence of pat together with the whitespace run following it, scanning
left to right and resuming after each deletion. -/
def stripPatWs (pat : List Char) (l : List Char) : List Char :=
  match l with
  | [] => []
  | c :: cs =>
    if h : pat ≠ [] ∧ pat.isPrefixOf (c :: cs) then
      stripPatWs pat ((cs.drop (pat.length - 1)).dropWhile isJsWs)
    else c :: stripPatWs pat cs
termination_by l.length
decreasing_by
  all_goals simp_wf
  calc ((cs.drop (pat.length - 1)).dropWhile isJsWs).length
      ≤ (cs.drop (pat.length - 1)).length :=
        (List.dropWhile_sublist _).length_le
    _ ≤ cs.length := by
        rw [List.length_drop]
        exact Nat.sub_le _ _
    _ < cs.length + 1 := Nat.lt_succ_self _

/-- The JSON cleaning in actions.ts lines 182-185 and page.tsx lines
207-210: strip fenced-code markers then trim. -/
def cleanJson (content : List Char) : List Char :=
  trimChars (stripPatWs ("```".toList) (stripPatWs ("```json".toList) content))

/-- Runtime JSON values. A number records whether it is finite (JSON.parse
can produce Infinity from an out-of-range literal). -/
inductive Json where
  | jnull : Json
  | jbool (b : Bool) : Json
  | jnum (finite : Bool) (v : Int) : Json
  | jstr (s : List Char) : Json
  | jarr (items : List Json) : Json
  | jobj (fields : List (List Char × Json)) : Json

/-- Field lookup in a JS object (first binding wins). -/
def lookupFirst : List (List Char × Json) → List Char → Option Json
  | [], _ => none
  | (k, v) :: rest, key => if k = key then some v else lookupFirst rest key

/-- Property access j?.k : undefined (none) unless j is an object holding k. -/
def jsGet (j : Json) (k : List Char) : Option Json :=
  match j with
  | .jobj fields => lookupFirst fields k
  | _ => none

/-- JS truthiness of a possibly-undefined value. -/
def jsTruthy : Option Json → Bool
  | none => false
  | some .jnull => false
  | some (.jbool b) => b
  | some (.jnum _ v) => v ≠ 0
  | some (.jstr s) => !s.isEmpty
  | some (.jarr _) => true
  | some (.jobj _) => true

/-- Truthiness of x?.length where x is data.items: arrays and strings have a
length property; any other value yields undefined, which is falsy. -/
def jsLenTruthy : Option Json → Bool
  | some (.jarr xs) => !xs.isEmpty
  | some (.jstr s) => !s.isEmpty
  | _ => false

/-- The per-item filter predicate of page.tsx lines 216-223:
item && typeof item === 'object' && 'name' in item && 'value' in item &&
typeof item.value === 'number' && isFinite(item.value). Note that only the
presence of name is checked, not that it is a string. -/
def jsItemOk : Json → Bool
  | .jobj fields =>
    (lookupFirst fields ("name".toList)).isSome &&
    (match lookupFirst fields ("value".toList) with
     | some (.jnum finite _) => finite
     | _ => false)
  | _ => false

/-- z.enum(['trend', 'sector', 'heatmap']) applied to a runtime value. -/
def chartTypeOk : Json → Bool
  | .jstr s => s = "trend".toList || s = "sector".toList || s = "heatmap".toList
  | _ => false

/-- One element of ChartSchema.items: z.object with name : z.string() and
value : z.number().finite(). -/
def chartItemSchemaOk : Json → Bool
  | .jobj fields =>
    (match lookupFirst fields ("name".toList) with
     | some (.jstr _) => true
     | _ => false) &&
    (match lookupFirst fields ("value".toList) with
     | some (.jnum finite _) => finite
     | _ => false)
  | _ => false

/-- ChartSchema.parse succeeds: object whose type passes the enum and whose
items is a non-empty array all of whose elements pass; zod rejects the whole
payload when any element fails. -/
def chartSchemaOk : Json → Bool
  | .jobj fields =>
    chartTypeOk ((lookupFirst fields ("type".toList)).getD .jnull) &&
    (match lookupFirst fields ("items".toList) with
     | some (.jarr xs) => !xs.isEmpty && xs.all chartItemSchemaOk
     | _ => false)
  | _ => false

/-- The testCoverage record of the ApiResponse interface. -/
structure TestCoverage where
  inputValidation : Bool
  apiResponse : Bool
  dataParsing : Bool
deriving DecidableEq, Repr

/-- The ApiResponse interface of actions.ts (timestamp and requestId are
always set by analyzeFinancialDataAction, so they are plain fields here). -/
structure ApiResponse where
  success : Bool
  data : Option (List Char) := none
  error : Option (List Char) := none
  testCoverage : TestCoverage
  timestamp : Int
  requestId : List Char
deriving DecidableEq, Repr

/-- External collaborators of one invocation: the credential from
process.env, the outcome of the single model.generateContent call followed
by response.text() (an exception or the returned text), and JSON.parse
(none when it throws). requestId and now stand for generateRequestId() and
Date.now() at call start. -/
structure Env where
  apiKey : Option (List Char)
  genResult : Except (List Char) (List Char)
  parseJson : List Char → Option Json
  requestId : List Char
  now : Int

/-- Error message of the missing-credential branch. -/
def configErrorMsg : List Char :=
  "AI service configuration error. Please contact system administrator.".toList

/-- Error message of the catch branch. -/
def unavailableMsg : List Char :=
  "Analysis service temporarily unavailable. Please try again.".toList

/-- z.string().min(3) message. -/
def msgMin : List Char := "Query must contain at least 3 characters".toList

/-- z.string().max(2000) message. -/
def msgMax : List Char := "Query exceeds maximum length of 2000 characters".toList

/-- validation.error.errors.map(err => err.message).join("; "). -/
def joinSemicolon : List (List Char) → List Char
  | [] => []
  | [m] => m
  | m :: rest => m ++ "; ".toList ++ joinSemicolon rest

/-- Issues produced by FinancialQuerySchema.safeParse on a string prompt: in
zod the min and max checks run in order on the raw string, and the trim
transform only runs after them, so the bounds apply to the untrimmed
string. -/
def validationErrors (raw : List Char) : List (List Char) :=
  (if raw.length < 3 then [msgMin] else []) ++
  (if raw.length > 2000 then [msgMax] else [])

/-- The chart extraction block of actions.ts lines 176-196: chartDataValid
is true only when a non-empty delimited substring is found, cleans and
parses as JSON, and passes ChartSchema. -/
def serviceChartFlag (parse : List Char → Option Json) (responseText : List Char) : Bool :=
  match extractFirstData responseText with
  | none => false
  | some content =>
    if content.isEmpty then false
    else
      match parse (cleanJson content) with
      | none => false
      | some parsed => chartSchemaOk parsed

/-- Result of one run: the returned envelope plus how many outbound
generateContent calls were issued. -/
structure RunResult where
  resp : ApiResponse
  apiCalls : Nat

/-- analyzeFinancialDataAction of actions.ts lines 66-237, string-input
overload, instrumented with the outbound-call count. Control flow: missing
credential, then zod validation, then the try block holding the single
generateContent call, the empty-response throw, the chart extraction, and
the success return; the catch branch converts any throw from the call or
the emptiness check into the generic unavailable envelope. -/
def analyzeRun (env : Env) (rawPrompt : List Char) : RunResult :=
  match env.apiKey with
  | none =>
    { resp := { success := false
                error := some configErrorMsg
                testCoverage := ⟨false, false, false⟩
                timestamp := env.now
                requestId := env.requestId }
      apiCalls := 0 }
  | some _ =>
    let errs := validationErrors rawPrompt
    if errs.isEmpty then
      match env.genResult with
      | .error _ =>
        { resp := { success := false
                    error := some unavailableMsg
                    testCoverage := ⟨true, false, false⟩
                    timestamp := env.now
                    requestId := env.requestId }
          apiCalls := 1 }
      | .ok responseText =>
        if responseText.isEmpty || (trimChars responseText).isEmpty then
          { resp := { success := false
                      error := some unavailableMsg
                      testCoverage := ⟨true, false, false⟩
                      timestamp := env.now
                      requestId := env.requestId }
            apiCalls := 1 }
        else
          { resp := { success := true
                      data := some responseText
                      testCoverage :=
                        ⟨true, true, serviceChartFlag env.parseJson responseText⟩
                      timestamp := env.now
                      requestId := env.requestId }
            apiCalls := 1 }
    else
      { resp := { success := false
                  error := some ("Invalid input: ".toList ++ joinSemicolon errs)
                  testCoverage := ⟨true, false, false⟩
                  timestamp := env.now
                  requestId := env.requestId }
        apiCalls := 0 }

/-- The envelope returned to the caller. -/
def analyzeFinancialDataAction (env : Env) (rawPrompt : List Char) : ApiResponse :=
  (analyzeRun env rawPrompt).resp

/-- The runtime value assembled by validateChartData in page.tsx lines
227-230: the type field is the raw runtime value (the TS cast does not
check it), and items are the raw filtered elements. -/
structure UiChartData where
  type : Json
  items : List Json

/-- validateChartData of page.tsx lines 202-235: extract the delimited
substring (empty capture is falsy), clean, JSON.parse (a throw is caught
and yields null), guard on data?.items?.length and data.type truthiness,
filter the items, and treat an empty filtered array as absent. Calling
.filter on a non-array items value throws a TypeError, which the catch
turns into null. -/
def validateChartData (parse : List Char → Option Json) (text : List Char) :
    Option UiChartData :=
  match extractFirstData text with
  | none => none
  | some content =>
    if content.isEmpty then none
    else
      match parse (cleanJson content) with
      | none => none
      | some d =>
        if !jsLenTruthy (jsGet d ("items".toList)) ||
           !jsTruthy (jsGet d ("type".toList)) then none
        else
          match jsGet d ("items".toList) with
          | some (.jarr xs) =>
            let validItems := xs.filter jsItemOk
            if validItems.isEmpty then none
            else some { type := (jsGet d ("type".toList)).getD .jnull
                        items := validItems }
          | _ => none

/-- HistoryItem of page.tsx lines 37-44. -/
structure HistoryItem where
  id : List Char
  query : List Char
  response : List Char
  timestamp : Int
  data : Option UiChartData := none
  requestId : Option (List Char) := none

/-- MAX_HISTORY_ITEMS of page.tsx line 53. -/
def MAX_HISTORY_ITEMS : Nat := 50

/-- The history update of handleSearch, page.tsx line 271:
setHistory(prev => [newItem, ...prev.slice(0, MAX_HISTORY_ITEMS - 1)]). -/
def appendHistory (item : HistoryItem) (prev : List HistoryItem) : List HistoryItem :=
  item :: prev.take (MAX_HISTORY_ITEMS - 1)

/-- A whole sequence of appends applied in order to the empty store. -/
def appendAll (items : List HistoryItem) : List HistoryItem :=
  items.foldl (fun h i => appendHistory i h) []

/-- JS String.prototype.toLowerCase, modelled per character. -/
def toLowerStr (l : List Char) : List Char := l.map Char.toLower

/-- filteredHistory of page.tsx lines 192-197: history.filter(item =>
item.query.toLowerCase().includes(search.toLowerCase())). -/
def filteredHistory (search : List Char) (history : List HistoryItem) :
    List HistoryItem :=
  history.filter (fun item => includesSub (toLowerStr item.query) (toLowerStr search))

/-- Acceptance condition of the chart payload as the spec words it
(section 4.3): the type is one of the three enumerated values and items is
a non-empty sequence whose every element has a string name and a finite
numeric value. Stated for comparison with chartSchemaOk, which embeds the
code. -/
def chartPayloadSpec (j : Json) : Prop :=
  ∃ fields, j = Json.jobj fields ∧
    (∃ t, lookupFirst fields ("type".toList) = some (.jstr t) ∧
      (t = "trend".toList ∨ t = "sector".toList ∨ t = "heatmap".toList)) ∧
    (∃ xs, lookupFirst fields ("items".toList) = some (.jarr xs) ∧ xs ≠ [] ∧
      ∀ x ∈ xs, ∃ f, x = Json.jobj f ∧
        (∃ n, lookupFirst f ("name".toList) = some (.jstr n)) ∧
        (∃ v, lookupFirst f ("value".toList) = some (.jnum true v)))

/-- A concrete environment with the credential present, a successful
completion, and a JSON.parse that always throws. -/
def okEnv : Env :=
  { apiKey := some ("k".toList)
    genResult := Except.ok ("Report <data>oops</data> done.".toList)
    parseJson := fun _ => none
    requestId := "req_1".toList
    now := 0 }

/-- A concrete environment with the credential absent. -/
def noKeyEnv : Env :=
  { apiKey := none
    genResult := Except.ok ("unused".toList)
    parseJson := fun _ => none
    requestId := "req_2".toList
    now := 0 }

/-- A concrete environment whose completion call throws. -/
def failEnv : Env :=
  { apiKey := some ("k".toList)
    genResult := Except.error ("network down".toList)
    parseJson := fun _ => none
    requestId := "req_3".toList
    now := 0 }

/-- A runtime payload whose type is outside the enumeration and whose
single item has a numeric name. -/
def bogusPayload : Json :=
  .jobj [("type".toList, .jstr ("bogus".toList)),
         ("items".toList, .jarr [.jobj [("name".toList, .jnum true 7),
                                        ("value".toList, .jnum true 2)]])]

/-- A JSON.parse behaviour returning bogusPayload for every input. -/
def bogusParse : List Char → Option Json := fun _ => some bogusPayload

/-- A well-formed chart item. -/
def goodItem : Json :=
  .jobj [("name".toList, .jstr ("a".toList)), ("value".toList, .jnum true 3)]

/-- A payload passing the service-side ChartSchema. -/
def goodPayload : Json :=
  .jobj [("type".toList, .jstr ("trend".toList)),
         ("items".toList, .jarr [goodItem])]

/-- A JSON.parse behaviour returning goodPayload for every input. -/
def goodParse : List Char → Option Json := fun _ => some goodPayload

/-- A history item whose query is Test NVDA. -/
def nvdaItem : HistoryItem :=
  { id := "h1".toList
    query := "Test NVDA".toList
    response := "resp".toList
    timestamp := 0 }

/-- A deterministic history item from an index, for concrete append runs. -/
def mkItem (n : Nat) : HistoryItem :=
  { id := []
    query := []
    response := []
    timestamp := n }

/-! ### Helper lemmas about first-occurrence splitting -/

theorem splitFirst_nil_pat (l : List Char) : splitFirst [] l = some ([], l) := by
  cases l with
  | nil => simp [splitFirst]
  | cons c cs => simp [splitFirst, List.isPrefixOf]

theorem includesSub_nil (hay : List Char) : includesSub hay [] = true := by
  simp [includesSub, splitFirst_nil_pat]

theorem splitFirst_eq_some (pat : List Char) :
    ∀ l b a, splitFirst pat l = some (b, a) → l = b ++ pat ++ a := by
  intro l
  induction l with
  | nil =>
    intro b a h
    simp only [splitFirst] at h
    split at h
    · next hp =>
      obtain ⟨hb, ha⟩ := Prod.mk.injEq .. ▸ Option.some.inj h
      have : pat = [] := List.prefix_nil.mp ( List.isPrefixOf_iff_prefix.mp hp)
      simp [← hb, ← ha, this]
    · exact absurd h (by simp)
  | cons c cs ih =>
    intro b a h
    simp only [splitFirst] at h
    split at h
    · next hp =>
      obtain ⟨hb, ha⟩ := Prod.mk.injEq .. ▸ Option.some.inj h
      have hpre : pat <+: c :: cs := List.isPrefixOf_iff_prefix.mp hp
      have : pat ++ (c :: cs).drop pat.length = c :: cs := by
        conv_rhs => rw [← List.take_append_drop pat.length (c :: cs)]
        rw [← List.prefix_iff_eq_take.mp hpre]
      simp [← hb, ← ha, this]
    · next hp =>
      rw [Option.map_eq_some'] at h
      obtain ⟨p, hps, hpe⟩ := h
      obtain ⟨hb, ha⟩ := Prod.mk.injEq .. ▸ hpe
      have := ih p.1 p.2 (by rw [hps])
      simp [← hb, ← ha, this]

theorem splitFirst_append (pat : List Char) :
    ∀ l u b a, splitFirst pat l = some (b, a) →
      splitFirst pat (l ++ u) = some (b, a ++ u) := by
  intro l
  induction l with
  | nil =>
    intro u b a h
    simp only [splitFirst] at h
    split at h
    · next hp =>
      obtain ⟨hb, ha⟩ := Prod.mk.injEq .. ▸ Option.some.inj h
      have hpn : pat = [] := List.prefix_nil.mp ( List.isPrefixOf_iff_prefix.mp hp)
      rw [hpn, List.nil_append, splitFirst_nil_pat]
      simp [← hb, ← ha]
    · exact absurd h (by simp)
  | cons c cs ih =>
    intro u b a h
    simp only [splitFirst] at h
    rw [List.cons_append]
    simp only [splitFirst]
    split at h
    · next hp =>
      obtain ⟨hb, ha⟩ := Prod.mk.injEq .. ▸ Option.some.inj h
      have hpre : pat <+: c :: cs := List.isPrefixOf_iff_prefix.mp hp
      have hcond : pat.isPrefixOf (c :: (cs ++ u)) = true := by
        rw [← List.cons_append]
        exact List.isPrefixOf_iff_prefix.mpr (hpre.trans (List.prefix_append (c :: cs) u))
      rw [if_pos hcond]
      have hdrop : (c :: (cs ++ u)).drop pat.length = (c :: cs).drop pat.length ++ u := by
        rw [← List.cons_append]
        exact List.drop_append_of_le_length hpre.length_le
      rw [hdrop, ← hb, ← ha]
    · next hp =>
      rw [Option.map_eq_some'] at h
      obtain ⟨p, hps, hpe⟩ := h
      obtain ⟨hb, ha⟩ := Prod.mk.injEq .. ▸ hpe
      have hlen : pat.length ≤ cs.length := by
        have := splitFirst_eq_some pat cs p.1 p.2 hps
        rw [this]
        simp
        omega
      have hnp : ¬ pat.isPrefixOf (c :: (cs ++ u)) = true := by
        intro hcon
        apply hp
        have hpre : pat <+: c :: (cs ++ u) := List.isPrefixOf_iff_prefix.mp hcon
        have : pat = (c :: (cs ++ u)).take pat.length := List.prefix_iff_eq_take.mp hpre
        rw [← List.cons_append] at this
        rw [List.take_append_of_le_length (by simpa using Nat.le_succ_of_le hlen)] at this
        exact List.isPrefixOf_iff_prefix.mpr (this ▸ List.take_prefix pat.length (c :: cs))
      rw [if_neg hnp, ih u p.1 p.2 (by rw [hps])]
      simp [← hb, ← ha]

theorem splitFirst_self_append (pat rest : List Char) (hp : pat ≠ []) :
    splitFirst pat (pat ++ rest) = some ([], rest) := by
  cases hpat : pat with
  | nil => exact absurd hpat hp
  | cons p ps =>
    rw [List.cons_append]
    simp only [splitFirst]
    rw [if_pos ( List.isPrefixOf_iff_prefix.mpr
      (by rw [← List.cons_append]; exact List.prefix_append (p :: ps) rest))]
    rw [← List.cons_append, ← hpat]
    congr 1
    rw [Prod.mk.injEq]
    refine ⟨rfl, ?_⟩
    rw [List.drop_left]

theorem extractFirstData_append (t u c : List Char)
    (h : extractFirstData t = some c) : extractFirstData (t ++ u) = some c := by
  unfold extractFirstData at h ⊢
  rcases ho : splitFirst tagOpen t with _ | ⟨b, rest⟩
  · simp [ho] at h
  · rw [splitFirst_append tagOpen t u b rest ho]
    simp only [ho] at h
    rcases hc : splitFirst tagClose rest with _ | ⟨content, aft⟩
    · simp [hc] at h
    · simp only [hc] at h
      simpa [splitFirst_append tagClose rest u content aft hc] using h

/-! ### Helper lemmas about the history store -/

theorem appendAll_eq (l : List HistoryItem) : appendAll l = l.reverse.take 50 := by
  induction l using List.reverseRecOn with
  | nil => rfl
  | append_singleton l a ih =>
    calc appendAll (l ++ [a]) = appendHistory a (appendAll l) := by
          simp [appendAll, List.foldl_append]
      _ = a :: (l.reverse.take 50).take 49 := by
          rw [ih]
          rfl
      _ = a :: l.reverse.take 49 := by
          rw [List.take_take]
          norm_num
      _ = (l ++ [a]).reverse.take 50 := by
          rw [List.reverse_append]
          rfl

theorem appendAll_length_le (l : List HistoryItem) : (appendAll l).length ≤ 50 := by
  rw [appendAll_eq]
  simp [List.length_take]

theorem appendAll_sixty (l : List HistoryItem) (h : l.length = 60) :
    appendAll l = (l.drop 10).reverse := by
  rw [appendAll_eq, List.reverse_drop, h]

/-! ### Helper lemmas about the chart schema -/

theorem chartItemSchemaOk_jobj (f : List (List Char × Json)) :
    chartItemSchemaOk (Json.jobj f) =
      ((match lookupFirst f ("name".toList) with
        | some (.jstr _) => true
        | _ => false) &&
       (match lookupFirst f ("value".toList) with
        | some (.jnum finite _) => finite
        | _ => false)) := rfl

theorem chartSchemaOk_jobj (fields : List (List Char × Json)) :
    chartSchemaOk (Json.jobj fields) =
      (chartTypeOk ((lookupFirst fields ("type".toList)).getD .jnull) &&
       (match lookupFirst fields ("items".toList) with
        | some (.jarr xs) => !xs.isEmpty && xs.all chartItemSchemaOk
        | _ => false)) := rfl

theorem chartTypeOk_getD_iff (o : Option Json) :
    chartTypeOk (o.getD .jnull) = true ↔
      ∃ t, o = some (Json.jstr t) ∧
        (t = "trend".toList ∨ t = "sector".toList ∨ t = "heatmap".toList) := by
  cases o with
  | none => simp [chartTypeOk]
  | some j =>
    cases j <;> simp [chartTypeOk]
    tauto

theorem chartItemSchemaOk_iff (x : Json) :
    chartItemSchemaOk x = true ↔
      ∃ f, x = Json.jobj f ∧
        (∃ n, lookupFirst f ("name".toList) = some (Json.jstr n)) ∧
        (∃ v, lookupFirst f ("value".toList) = some (Json.jnum true v)) := by
  cases x with
  | jobj f =>
    rw [chartItemSchemaOk_jobj, Bool.and_eq_true]
    simp only [Json.jobj.injEq]
    constructor
    · rintro ⟨h1, h2⟩
      refine ⟨f, rfl, ?_, ?_⟩
      · split at h1
        · next n heq => exact ⟨n, heq⟩
        · simp at h1
      · split at h2
        · next fin v heq => exact ⟨v, by rw [heq, h2]⟩
        · simp at h2
    · rintro ⟨f', rfl, ⟨n, hn⟩, ⟨v, hv⟩⟩
      refine ⟨?_, ?_⟩
      · rw [hn]
      · rw [hv]
  | jnull => exact ⟨fun h => Bool.noConfusion h, fun ⟨f, hf, _⟩ => Json.noConfusion hf⟩
  | jbool b => exact ⟨fun h => Bool.noConfusion h, fun ⟨f, hf, _⟩ => Json.noConfusion hf⟩
  | jnum fin v => exact ⟨fun h => Bool.noConfusion h, fun ⟨f, hf, _⟩ => Json.noConfusion hf⟩
  | jstr s => exact ⟨fun h => Bool.noConfusion h, fun ⟨f, hf, _⟩ => Json.noConfusion hf⟩
  | jarr xs => exact ⟨fun h => Bool.noConfusion h, fun ⟨f, hf, _⟩ => Json.noConfusion hf⟩

theorem chartSchemaOk_iff (j : Json) : chartSchemaOk j = true ↔ chartPayloadSpec j := by
  cases j with
  | jobj fields =>
    rw [chartSchemaOk_jobj, Bool.and_eq_true, chartTypeOk_getD_iff]
    unfold chartPayloadSpec
    simp only [Json.jobj.injEq]
    constructor
    · rintro ⟨h1, h2⟩
      refine ⟨fields, rfl, h1, ?_⟩
      split at h2
      · next xs heq =>
        rw [Bool.and_eq_true] at h2
        obtain ⟨hne, hall⟩ := h2
        rw [List.all_eq_true] at hall
        exact ⟨xs, heq, by simpa using hne,
          fun x hx => (chartItemSchemaOk_iff x).mp (hall x hx)⟩
      · simp at h2
    · rintro ⟨f', rfl, h1, xs, hxs, hne, hall⟩
      refine ⟨h1, ?_⟩
      simp only [hxs]
      rw [Bool.and_eq_true]
      exact ⟨by simpa using hne,
        List.all_eq_true.mpr fun x hx => (chartItemSchemaOk_iff x).mpr (hall x hx)⟩
  | jnull => exact ⟨fun h => Bool.noConfusion h, fun ⟨f, hf, _⟩ => Json.noConfusion hf⟩
  | jbool b => exact ⟨fun h => Bool.noConfusion h, fun ⟨f, hf, _⟩ => Json.noConfusion hf⟩
  | jnum fin v => exact ⟨fun h => Bool.noConfusion h, fun ⟨f, hf, _⟩ => Json.noConfusion hf⟩
  | jstr s => exact ⟨fun h => Bool.noConfusion h, fun ⟨f, hf, _⟩ => Json.noConfusion hf⟩
  | jarr xs => exact ⟨fun h => Bool.noConfusion h, fun ⟨f, hf, _⟩ => Json.noConfusion hf⟩

/-! ### Helper lemmas about validation and the action -/

theorem validationErrors_lt (raw : List Char) (h : raw.length < 3) :
    validationErrors raw = [msgMin] := by
  have h2 : ¬ raw.length > 2000 := by omega
  simp [validationErrors, h, h2]

theorem validationErrors_gt (raw : List Char) (h : raw.length > 2000) :
    validationErrors raw = [msgMax] := by
  have h3 : ¬ raw.length < 3 := by omega
  simp [validationErrors, h, h3]

theorem validationErrors_ok (raw : List Char) (h3 : 3 ≤ raw.length)
    (h2 : raw.length ≤ 2000) : validationErrors raw = [] := by
  have ha : ¬ raw.length < 3 := by omega
  have hb : ¬ raw.length > 2000 := by omega
  simp [validationErrors, ha, hb]

theorem analyzeRun_invalid (env : Env) (raw : List Char) (k : List Char)
    (hk : env.apiKey = some k) (hne : validationErrors raw ≠ []) :
    analyzeRun env raw =
      ⟨{ success := false
         data := none
         error := some ("Invalid input: ".toList ++ joinSemicolon (validationErrors raw))
         testCoverage := ⟨true, false, false⟩
         timestamp := env.now
         requestId := env.requestId }, 0⟩ := by
  unfold analyzeRun
  rw [hk]
  simp [hne]

/-! ### Claim theorems -/

/-- C7: if the external API credential is absent, the action returns, for
every input, success false with the configuration-error message and all
three coverage flags false, and issues no outbound call. -/
theorem missing_credential_fails_fast (env : Env) (raw : List Char)
    (h : env.apiKey = none) :
    analyzeFinancialDataAction env raw =
      { success := false
        data := none
        error := some configErrorMsg
        testCoverage := ⟨false, false, false⟩
        timestamp := env.now
        requestId := env.requestId } ∧
    (analyzeRun env raw).apiCalls = 0 := by
  unfold analyzeFinancialDataAction analyzeRun
  rw [h]
  exact ⟨rfl, rfl⟩

/-- Witness for C7 at the concrete credential-free environment. -/
theorem missing_credential_fails_fast_witness :
    analyzeFinancialDataAction noKeyEnv ("What is SPY?".toList) =
      { success := false
        data := none
        error := some configErrorMsg
        testCoverage := ⟨false, false, false⟩
        timestamp := 0
        requestId := "req_2".toList } ∧
    (analyzeRun noKeyEnv ("What is SPY?".toList)).apiCalls = 0 :=
  missing_credential_fails_fast noKeyEnv ("What is SPY?".toList) rfl

/-- C2 counterexample: on the length-invalid input ab (validation failed),
the returned inputValidation flag is true, not false as the claim states. -/
theorem validation_failure_flags_cex :
    (analyzeFinancialDataAction okEnv ("ab".toList)).success = false ∧
    (analyzeFinancialDataAction okEnv ("ab".toList)).testCoverage.inputValidation = true ∧
    ¬ (analyzeFinancialDataAction okEnv ("ab".toList)).testCoverage =
        ⟨false, false, false⟩ := by
  refine ⟨rfl, rfl, ?_⟩
  intro h
  simp [analyzeFinancialDataAction, analyzeRun, okEnv, validationErrors] at h

/-- C2 amended: whenever validation fails, the envelope carries success
false, the message Invalid input: followed by the semicolon-joined
violated-constraint messages, and coverage flags inputValidation true,
apiResponse false, dataParsing false. -/
theorem validation_failure_envelope (env : Env) (raw : List Char) (k : List Char)
    (hk : env.apiKey = some k) (hbad : raw.length < 3 ∨ raw.length > 2000) :
    analyzeFinancialDataAction env raw =
      { success := false
        data := none
        error := some ("Invalid input: ".toList ++ joinSemicolon (validationErrors raw))
        testCoverage := ⟨true, false, false⟩
        timestamp := env.now
        requestId := env.requestId } := by
  have hne : validationErrors raw ≠ [] := by
    rcases hbad with h | h
    · rw [validationErrors_lt raw h]
      simp
    · rw [validationErrors_gt raw h]
      simp
  unfold analyzeFinancialDataAction
  rw [analyzeRun_invalid env raw k hk hne]

/-- Witness for C2 at a concrete too-short input. -/
theorem validation_failure_envelope_witness :
    analyzeFinancialDataAction okEnv ("hi".toList) =
      { success := false
        data := none
        error := some ("Invalid input: ".toList ++ msgMin)
        testCoverage := ⟨true, false, false⟩
        timestamp := 0
        requestId := "req_1".toList } := by
  have h := validation_failure_envelope okEnv ("hi".toList) ("k".toList) rfl
    (Or.inl (by decide))
  simpa [validationErrors, joinSemicolon] using h

/-- C1 counterexample: the input consisting of the letter a padded with
whitespace has trimmed length 1 < 3, yet validation passes and the request
proceeds to the external call, returning success true. -/
theorem query_length_trim_order_cex :
    (trimChars ("  a  ".toList)).length < 3 ∧
    (analyzeFinancialDataAction okEnv ("  a  ".toList)).success = true ∧
    (analyzeRun okEnv ("  a  ".toList)).apiCalls = 1 := by
  refine ⟨by decide, rfl, rfl⟩

/-- C1 amended: the length bounds are checked on the raw string before the
zod trim transform runs. With the credential present, raw length < 3 or
> 2000 yields success false with the message naming the violated bound and
no outbound call; raw length in [3, 2000] passes validation and exactly one
outbound call is made. -/
theorem query_length_bounds_pre_trim (env : Env) (raw : List Char) (k : List Char)
    (hk : env.apiKey = some k) :
    (raw.length < 3 →
      analyzeFinancialDataAction env raw =
        { success := false
          data := none
          error := some ("Invalid input: ".toList ++ msgMin)
          testCoverage := ⟨true, false, false⟩
          timestamp := env.now
          requestId := env.requestId } ∧
      (analyzeRun env raw).apiCalls = 0) ∧
    (raw.length > 2000 →
      analyzeFinancialDataAction env raw =
        { success := false
          data := none
          error := some ("Invalid input: ".toList ++ msgMax)
          testCoverage := ⟨true, false, false⟩
          timestamp := env.now
          requestId := env.requestId } ∧
      (analyzeRun env raw).apiCalls = 0) ∧
    (3 ≤ raw.length → raw.length ≤ 2000 → (analyzeRun env raw).apiCalls = 1) := by
  refine ⟨?_, ?_, ?_⟩
  · intro h
    have hne : validationErrors raw ≠ [] := by
      rw [validationErrors_lt raw h]
      simp
    constructor
    · unfold analyzeFinancialDataAction
      rw [analyzeRun_invalid env raw k hk hne, validationErrors_lt raw h]
      rfl
    · rw [analyzeRun_invalid env raw k hk hne]
  · intro h
    have hne : validationErrors raw ≠ [] := by
      rw [validationErrors_gt raw h]
      simp
    constructor
    · unfold analyzeFinancialDataAction
      rw [analyzeRun_invalid env raw k hk hne, validationErrors_gt raw h]
      rfl
    · rw [analyzeRun_invalid env raw k hk hne]
  · intro h3 h2
    have hv := validationErrors_ok raw h3 h2
    unfold analyzeRun
    rw [hk]
    simp only [hv, List.isEmpty_nil, if_true]
    rcases env.genResult with e | t
    · rfl
    · by_cases he : (t.isEmpty || (trimChars t).isEmpty) = true
      · simp only [he, if_true]
      · simp only [Bool.not_eq_true] at he
        simp [he]

/-- Witness for C1 at a concrete in-bounds input. -/
theorem query_length_bounds_pre_trim_witness :
    analyzeFinancialDataAction okEnv ("no".toList) =
      { success := false
        data := none
        error := some ("Invalid input: ".toList ++ msgMin)
        testCoverage := ⟨true, false, false⟩
        timestamp := 0
        requestId := "req_1".toList } ∧
    (analyzeRun okEnv ("test SPY".toList)).apiCalls = 1 := by
  have h := query_length_bounds_pre_trim okEnv ("no".toList) ("k".toList) rfl
  have h2 := query_length_bounds_pre_trim okEnv ("test SPY".toList) ("k".toList) rfl
  exact ⟨(h.1 (by decide)).1, h2.2.2 (by decide) (by decide)⟩

/-- C5: for every valid input, any failure of the external call (a thrown
error or an empty or whitespace-only completion) yields success false with
the generic service-unavailable message and flags inputValidation true,
apiResponse false, dataParsing false, after exactly one outbound call. -/
theorem upstream_failure_envelope (env : Env) (raw : List Char) (k : List Char)
    (hk : env.apiKey = some k) (h3 : 3 ≤ raw.length) (h2 : raw.length ≤ 2000)
    (hfail : (∃ e, env.genResult = Except.error e) ∨
             (∃ t, env.genResult = Except.ok t ∧ trimChars t = [])) :
    analyzeFinancialDataAction env raw =
      { success := false
        data := none
        error := some unavailableMsg
        testCoverage := ⟨true, false, false⟩
        timestamp := env.now
        requestId := env.requestId } ∧
    (analyzeRun env raw).apiCalls = 1 := by
  have hv := validationErrors_ok raw h3 h2
  unfold analyzeFinancialDataAction analyzeRun
  rw [hk]
  simp only [hv, List.isEmpty_nil, if_true]
  rcases hfail with ⟨e, he⟩ | ⟨t, ht, htr⟩
  · rw [he]
    exact ⟨rfl, rfl⟩
  · rw [ht]
    have hcond : (t.isEmpty || (trimChars t).isEmpty) = true := by
      simp [htr]
    simp [hcond]

/-- Witness for C5 at the concrete throwing environment. -/
theorem upstream_failure_envelope_witness :
    analyzeFinancialDataAction failEnv ("test SPY".toList) =
      { success := false
        data := none
        error := some unavailableMsg
        testCoverage := ⟨true, false, false⟩
        timestamp := 0
        requestId := "req_3".toList } ∧
    (analyzeRun failEnv ("test SPY".toList)).apiCalls = 1 :=
  upstream_failure_envelope failEnv ("test SPY".toList) ("k".toList) rfl
    (by decide) (by decide) (Or.inl ⟨"network down".toList, rfl⟩)

/-- C6: when the call succeeds with non-empty text but the delimited
payload is absent, empty, unparsable, or schema-invalid, the action still
returns success true with dataParsing false and the data field equal to the
full raw response text unchanged. -/
theorem parse_failure_nonfatal (env : Env) (raw : List Char) (k : List Char)
    (t : List Char) (hk : env.apiKey = some k) (h3 : 3 ≤ raw.length)
    (h2 : raw.length ≤ 2000) (hok : env.genResult = Except.ok t)
    (hne : trimChars t ≠ [])
    (hbad : extractFirstData t = none ∨
            ∃ c, extractFirstData t = some c ∧
              (c = [] ∨ env.parseJson (cleanJson c) = none ∨
               ∃ j, env.parseJson (cleanJson c) = some j ∧ chartSchemaOk j = false)) :
    analyzeFinancialDataAction env raw =
      { success := true
        data := some t
        error := none
        testCoverage := ⟨true, true, false⟩
        timestamp := env.now
        requestId := env.requestId } := by
  have hflag : serviceChartFlag env.parseJson t = false := by
    rcases hbad with hnone | ⟨c, hc, hcc⟩
    · simp [serviceChartFlag, hnone]
    · rcases hcc with rfl | hp | ⟨j, hj, hjf⟩
      · simp [serviceChartFlag, hc]
      · simp [serviceChartFlag, hc, hp]
      · simp [serviceChartFlag, hc, hj, hjf]
  have htne : t.isEmpty = false := by
    cases t with
    | nil => exact absurd rfl hne
    | cons c cs => rfl
  have htr : (trimChars t).isEmpty = false := by
    cases htc : trimChars t with
    | nil => exact absurd htc hne
    | cons c cs => rfl
  have hv := validationErrors_ok raw h3 h2
  unfold analyzeFinancialDataAction analyzeRun
  rw [hk]
  simp only [hv, List.isEmpty_nil, if_true]
  rw [hok]
  simp only [htne, htr, Bool.or_self, Bool.false_eq_true, if_false]
  rw [hflag]

/-- Witness for C6: the completion embeds a block whose JSON.parse throws. -/
theorem parse_failure_nonfatal_witness :
    analyzeFinancialDataAction okEnv ("test SPY".toList) =
      { success := true
        data := some ("Report <data>oops</data> done.".toList)
        error := none
        testCoverage := ⟨true, true, false⟩
        timestamp := 0
        requestId := "req_1".toList } :=
  parse_failure_nonfatal okEnv ("test SPY".toList) ("k".toList)
    ("Report <data>oops</data> done.".toList) rfl (by decide) (by decide) rfl
    (by decide) (Or.inr ⟨"oops".toList, rfl, Or.inr (Or.inl rfl)⟩)

/-- C9: on every path the coverage flags satisfy dataParsing implies
apiResponse, apiResponse implies inputValidation, and apiResponse always
equals success. -/
theorem coverage_flag_invariant (env : Env) (raw : List Char) :
    ((analyzeFinancialDataAction env raw).testCoverage.dataParsing = true →
      (analyzeFinancialDataAction env raw).testCoverage.apiResponse = true) ∧
    ((analyzeFinancialDataAction env raw).testCoverage.apiResponse = true →
      (analyzeFinancialDataAction env raw).testCoverage.inputValidation = true) ∧
    (analyzeFinancialDataAction env raw).testCoverage.apiResponse =
      (analyzeFinancialDataAction env raw).success := by
  unfold analyzeFinancialDataAction analyzeRun
  rcases hk : env.apiKey with _ | k
  · exact ⟨fun h => Bool.noConfusion h, fun h => Bool.noConfusion h, rfl⟩
  · cases herr : (validationErrors raw).isEmpty
    · simp [herr]
    · rcases hg : env.genResult with e | t
      · simp [herr, hg]
      · cases hemp : (t.isEmpty || (trimChars t).isEmpty)
        · simp [herr, hg, hemp]
        · simp [herr, hg, hemp]

/-- Witness for C9 on the success path of the concrete environment. -/
theorem coverage_flag_invariant_witness :
    (analyzeFinancialDataAction okEnv ("test SPY".toList)).testCoverage.inputValidation
      = true :=
  (coverage_flag_invariant okEnv ("test SPY".toList)).2.1 rfl

/-- C4: after any sequence of appends starting from the empty store the
store holds at most 50 items, equals the reversed input truncated to the 50
most recent (newest first, oldest evicted), and 60 sequential appends leave
exactly the 50 most recently appended items. -/
theorem history_append_cap_newest_first :
    ∀ items : List HistoryItem,
      (appendAll items).length ≤ 50 ∧
      appendAll items = items.reverse.take 50 ∧
      (items.length = 60 → appendAll items = (items.drop 10).reverse) :=
  fun items => ⟨appendAll_length_le items, appendAll_eq items,
    fun h => appendAll_sixty items h⟩

/-- Witness for C4 on a concrete 60-element append sequence. -/
theorem history_append_cap_newest_first_witness :
    ((List.range 60).map mkItem).length = 60 ∧
    appendAll ((List.range 60).map mkItem) =
      (((List.range 60).map mkItem).drop 10).reverse := by
  exact ⟨by simp, (history_append_cap_newest_first ((List.range 60).map mkItem)).2.2
    (by simp)⟩

/-- C8: searching with the empty string returns the full sequence; search
is a case-insensitive containment filter that preserves order and does not
mutate the store; an item with query Test NVDA is found by nvda. -/
theorem history_search_spec :
    (∀ h : List HistoryItem, filteredHistory [] h = h) ∧
    (∀ (s : List Char) (h : List HistoryItem), (filteredHistory s h).Sublist h) ∧
    (∀ (s : List Char) (h : List HistoryItem) (x : HistoryItem),
      x ∈ filteredHistory s h ↔
        x ∈ h ∧ includesSub (toLowerStr x.query) (toLowerStr s) = true) ∧
    filteredHistory ("nvda".toList) [nvdaItem] = [nvdaItem] := by
  refine ⟨?_, ?_, ?_, ?_⟩
  · intro h
    simp [filteredHistory, toLowerStr, includesSub_nil]
  · intro s h
    exact List.filter_sublist h
  · intro s h x
    simp [filteredHistory, List.mem_filter]
  · rfl

/-- C10: extraction considers only the first delimited block. Once a
complete block is present, appending anything (further blocks included)
does not change the extracted content; the content is the shortest match up
to the first closing tag; and both the UI validator and the service chart
flag are unchanged by text after a complete first block. -/
theorem first_block_only :
    (∀ t u c : List Char, extractFirstData t = some c →
       extractFirstData (t ++ u) = some c) ∧
    (∀ a u : List Char, splitFirst tagClose (a ++ tagClose ++ u) = some (a, u) →
       extractFirstData (tagOpen ++ a ++ tagClose ++ u) = some a) ∧
    (∀ (parse : List Char → Option Json) (t u c : List Char),
       extractFirstData t = some c →
       validateChartData parse (t ++ u) = validateChartData parse t ∧
       serviceChartFlag parse (t ++ u) = serviceChartFlag parse t) := by
  refine ⟨fun t u c h => extractFirstData_append t u c h, ?_, ?_⟩
  · intro a u hsplit
    have hsplit' : splitFirst tagClose (a ++ (tagClose ++ u)) = some (a, u) := by
      rw [← List.append_assoc]
      exact hsplit
    unfold extractFirstData
    rw [show tagOpen ++ a ++ tagClose ++ u = tagOpen ++ (a ++ (tagClose ++ u)) by
      simp only [List.append_assoc]]
    rw [splitFirst_self_append tagOpen (a ++ (tagClose ++ u)) (by decide)]
    simp [hsplit']
  · intro parse t u c h
    have h2 := extractFirstData_append t u c h
    constructor
    · unfold validateChartData
      rw [h, h2]
    · unfold serviceChartFlag
      rw [h, h2]

/-- Witness for C10 on a text holding two complete blocks. -/
theorem first_block_only_witness :
    extractFirstData ("<data>A</data>".toList ++ "<data>B</data>".toList) =
      some ("A".toList) ∧
    extractFirstData (tagOpen ++ "A".toList ++ tagClose ++ "<data>B</data>".toList) =
      some ("A".toList) :=
  ⟨(first_block_only).1 ("<data>A</data>".toList) ("<data>B</data>".toList)
      ("A".toList) (by decide),
   (first_block_only).2.1 ("A".toList) ("<data>B</data>".toList) (by decide)⟩

/-- C3 counterexample: the UI-layer validator accepts a payload whose type
is bogus (outside the enumeration) and whose only item has a numeric name,
while the service-side schema rejects the same payload. -/
theorem chart_validation_lenient_ui_cex :
    validateChartData bogusParse ("<data>x</data>".toList) =
      some { type := Json.jstr ("bogus".toList)
             items := [Json.jobj [("name".toList, Json.jnum true 7),
                                  ("value".toList, Json.jnum true 2)]] } ∧
    chartTypeOk (Json.jstr ("bogus".toList)) = false ∧
    chartSchemaOk bogusPayload = false :=
  ⟨rfl, rfl, rfl⟩

/-- C3 amended: the service-side ChartSchema accepts exactly the payloads
with an enumerated type and a non-empty item sequence of string names and
finite numeric values (any invalid element rejects the whole payload); the
UI-layer validateChartData instead filters out invalid items, checking only
that each is an object with name and value fields and a finite numeric
value, and treats an empty filtered sequence as an absent payload. -/
theorem chart_extraction_two_validators :
    (∀ j : Json, chartSchemaOk j = true ↔ chartPayloadSpec j) ∧
    (∀ (parse : List Char → Option Json) (t c : List Char) (d : Json)
       (xs : List Json),
       extractFirstData t = some c → c ≠ [] →
       parse (cleanJson c) = some d →
       jsGet d ("items".toList) = some (Json.jarr xs) → xs ≠ [] →
       jsTruthy (jsGet d ("type".toList)) = true →
       validateChartData parse t =
         (if (xs.filter jsItemOk).isEmpty then none
          else some { type := (jsGet d ("type".toList)).getD Json.jnull
                      items := xs.filter jsItemOk })) := by
  refine ⟨chartSchemaOk_iff, ?_⟩
  intro parse t c d xs hx hc hp hi hxe ht
  have hce : c.isEmpty = false := by
    cases c with
    | nil => exact absurd rfl hc
    | cons a as => rfl
  have hxs : xs.isEmpty = false := by
    cases xs with
    | nil => exact absurd rfl hxe
    | cons a as => rfl
  unfold validateChartData
  rw [hx]
  simp at hi ht
  simp [hce, hp, hi, ht, hxs,
    show jsLenTruthy (some (Json.jarr xs)) = !xs.isEmpty from rfl]

/-- Witness for C3 on a concrete well-formed payload. -/
theorem chart_extraction_two_validators_witness :
    validateChartData goodParse ("<data>x</data>".toList) =
      some { type := Json.jstr ("trend".toList), items := [goodItem] } :=
  (chart_extraction_two_validators).2 goodParse ("<data>x".toList ++ "</data>".toList)
    ("x".toList) goodPayload [goodItem] (by decide) (by decide) rfl rfl
    (List.cons_ne_nil _ _) rfl

end FinAgent
